import Mathlib

/-!
Verification development for the Stock Market Performance Analysis dashboard
(`src/pages/4_Risk_Analysis_Wizard.py`, `src/pages/mavrovis.py`,
`src/pages/sectorplot.py`).

Shallow embedding conventions:

* Numeric cells are `Option ℚ`: `none` models pandas/NumPy `NaN` (and the
  IEEE infinities produced by division by zero, which the pages let
  propagate and which every claim under scrutiny excludes via definedness
  or non-degeneracy hypotheses).  All float arithmetic is idealised as
  exact rational arithmetic.
* Square roots (`Series.rolling(w).std()`, `np.sqrt(252)`, the Pearson
  denominator) are not rational in general; `ratSqrt` below is exact on
  perfect squares of rationals and is the embedding of the float square
  root.  Every theorem that depends on an actual square-root *value* is
  instantiated at inputs whose variance is a perfect square, where
  `ratSqrt` agrees with the real square root; the remaining theorems use
  `ratSqrt` only as an opaque-in-effect function (no algebraic property of
  it is assumed).
* pandas `Series.rolling(window=w)` yields a defined value exactly when the
  trailing window of `w` cells is complete and NaN-free (`min_periods`
  defaults to the window size).
* pandas `Series.where(cond, other)` replaces every position whose
  condition is `False` — NaN comparisons evaluate to `False`, so the
  leading NaN of `diff()` becomes `other` (this matters for the RSI gain /
  loss series, which are total as a consequence).
* `DataFrame.max(axis=1)` skips NaN entries and is NaN only when the whole
  row is NaN.
-/

namespace StockApp

/-- A numeric cell of a pandas column: `none` is NaN. -/
abbrev Cell := Option ℚ

/-- A pandas column / series of numeric cells. -/
abbrev Col := List Cell

/-- Value of a series at integer position `t` (out of range = NaN). -/
def cellAt (l : Col) (t : ℕ) : Cell := (l.get? t).join

/-- Collect a list of optional values, failing if any is missing (the
NaN-propagation of a rolling window). -/
def optList : List Cell → Option (List ℚ)
  | [] => some []
  | none :: _ => none
  | some x :: rest => (optList rest).map (x :: ·)

/-- The trailing window of `period` values of `f` ending at position `t`:
defined when the window is complete (`period ≤ t+1`) and NaN-free.  Mirrors
`Series.rolling(window=period)` with its default `min_periods`. -/
def owin (f : ℕ → Cell) (period t : ℕ) : Option (List ℚ) :=
  if period ≤ t + 1 then optList ((List.range period).map (fun j => f (t - j))) else none

/-- Arithmetic mean of a list of rationals (empty list: `0/0 = 0`). -/
def meanQ (l : List ℚ) : ℚ := l.sum / (l.length : ℚ)

/-- Sample variance with `ddof = 1` (the pandas `std` default). -/
def var1 (l : List ℚ) : ℚ :=
  ((l.map (fun x => (x - meanQ l) ^ 2)).sum) / ((l.length : ℚ) - 1)

/-- Largest `k ≤ fuel` with `k * k ≤ n` (a kernel-reducible integer square
root; starts the downward scan at `fuel`). -/
def isqrtAux : ℕ → ℕ → ℕ
  | 0, _ => 0
  | k + 1, n => if (k + 1) * (k + 1) ≤ n then k + 1 else isqrtAux k n

/-- Integer square root, `⌊√n⌋`. -/
def intSqrt (n : ℕ) : ℕ := isqrtAux n n

/-- Embedding of the float square root into ℚ: exact on perfect squares of
rationals, and total (garbage-in-garbage-out elsewhere; no theorem relies
on its value off perfect squares). -/
def ratSqrt (q : ℚ) : ℚ := (intSqrt q.num.toNat : ℚ) / (intSqrt q.den : ℚ)

/-- `np.clip(x, 0, 100)`. -/
def npClip (x : ℚ) : ℚ := max 0 (min x 100)

/-- `np.sign`. -/
def signQ (x : ℚ) : ℚ := if 0 < x then 1 else if x < 0 then -1 else 0

/-! ## Indicator library

Embedded from the inner functions of `calculate_greed_fear_index`
(`src/pages/4_Risk_Analysis_Wizard.py` lines 17–70, identically duplicated
in `src/pages/mavrovis.py` lines 13–66), read pointwise at position `t`. -/

/-- `prices.diff()` at position `t`. -/
def diffAt (prices : Col) (t : ℕ) : Cell :=
  match t with
  | 0 => none
  | s + 1 => do
      let a ← cellAt prices (s + 1)
      let b ← cellAt prices s
      pure (a - b)

/-- `delta.where(delta > 0, 0)` at position `t`.  Total: a NaN condition is
`False`, so the leading NaN of `diff()` is replaced by `0`. -/
def gainAt (prices : Col) (t : ℕ) : ℚ :=
  match diffAt prices t with
  | some d => if 0 < d then d else 0
  | none => 0

/-- `(-delta.where(delta < 0, 0))` at position `t`. -/
def lossAt (prices : Col) (t : ℕ) : ℚ :=
  match diffAt prices t with
  | some d => if d < 0 then -d else 0
  | none => 0

/-- `gain.rolling(window=period).mean()` at position `t`. -/
def gainMeanAt (prices : Col) (period t : ℕ) : Cell :=
  (owin (fun i => some (gainAt prices i)) period t).map meanQ

/-- `loss.rolling(window=period).mean()` at position `t`. -/
def lossMeanAt (prices : Col) (period t : ℕ) : Cell :=
  (owin (fun i => some (lossAt prices i)) period t).map meanQ

/-- `calculate_rsi(prices, period)` at position `t`:
`rs = gain/loss; rsi = 100 - 100/(1+rs)`.  `loss = 0` makes `rs` an IEEE
infinity/NaN in the source; here it is undefined. -/
def calculate_rsi (prices : Col) (period t : ℕ) : Cell := do
  let g ← gainMeanAt prices period t
  let l ← lossMeanAt prices period t
  if l = 0 then none else pure (100 - 100 / (1 + g / l))

/-- `bollinger_position(prices, period)` at position `t`:
`(prices - lower) / (upper - lower)` with `upper/lower = sma ± 2·std`.
A zero denominator (zero variance) is undefined. -/
def bollinger_position (prices : Col) (period t : ℕ) : Cell := do
  let w ← owin (cellAt prices) period t
  let c ← cellAt prices t
  let sma := meanQ w
  let std := ratSqrt (var1 w)
  let upper := sma + std * 2
  let lower := sma - std * 2
  if upper - lower = 0 then none else pure ((c - lower) / (upper - lower))

/-- `volume_surge(volume, period)` at position `t`: `volume / vol_sma`. -/
def volume_surge (volume : Col) (period t : ℕ) : Cell := do
  let w ← owin (cellAt volume) period t
  let v ← cellAt volume t
  let m := meanQ w
  if m = 0 then none else pure (v / m)

/-- `price_momentum(prices, period)` at position `t`, i.e.
`prices.pct_change(periods=period)`:`prices[t]/prices[t-period] - 1`. -/
def price_momentum (prices : Col) (period t : ℕ) : Cell :=
  if period ≤ t then do
    let c ← cellAt prices t
    let p ← cellAt prices (t - period)
    if p = 0 then none else pure (c / p - 1)
  else none

/-- The `Greed_Fear_Index` value at position `t`, with the four window
lengths as parameters (the pages call the indicator helpers with their
defaults `14, 20, 20, 10`):

`RSI_Norm*0.3 + BB_Norm*0.25 + Volume_Norm*0.25 + Momentum_Norm*0.2`
with `RSI_Norm = RSI`, `BB_Norm = BB_Position*100`,
`Volume_Norm = np.clip((Volume_Surge - 0.5)*100, 0, 100)`,
`Momentum_Norm = np.clip((Price_Momentum + 0.1)*500, 0, 100)`. -/
def greed_fear_at (closes volume : Col) (p1 p2 p3 p4 t : ℕ) : Cell := do
  let r ← calculate_rsi closes p1 t
  let b ← bollinger_position closes p2 t
  let vs ← volume_surge volume p3 t
  let m ← price_momentum closes p4 t
  pure (r * 0.3 + (b * 100) * 0.25 + npClip ((vs - 0.5) * 100) * 0.25 +
        npClip ((m + 0.1) * 500) * 0.2)

/-- `Greed_Fear_Index` with the default windows used by both pages. -/
def greed_fear_index_at (closes volume : Col) (t : ℕ) : Cell :=
  greed_fear_at closes volume 14 20 20 10 t



/- Batteries marks the ℚ field operations `@[irreducible]`; concrete
evaluation of the embedded pipeline (the `decide`-based theorems below)
needs them to unfold. -/
set_option allowUnsafeReducibility true

attribute [local semireducible] Rat.add Rat.mul Rat.inv Rat.sub Rat.ofScientific


/-! ## Generic facts about windows and means -/

theorem optList_map_some (l : List ℚ) : optList (l.map some) = some l := by
  induction l with
  | nil => rfl
  | cons x xs ih => simp [optList, ih]

theorem owin_total (f : ℕ → ℚ) (period t : ℕ) (h : period ≤ t + 1) :
    owin (fun i => some (f i)) period t =
      some ((List.range period).map (fun j => f (t - j))) := by
  have : (List.range period).map (fun j => some (f (t - j))) =
      ((List.range period).map (fun j => f (t - j))).map some := by
    simp [List.map_map, Function.comp_def]
  simp only [owin, if_pos h, this, optList_map_some]

theorem meanQ_nonneg (l : List ℚ) (h : ∀ x ∈ l, 0 ≤ x) : 0 ≤ meanQ l :=
  div_nonneg (List.sum_nonneg h) (by positivity)

theorem owin_none (f : ℕ → Cell) {period t : ℕ} (hp : ¬ period ≤ t + 1) :
    owin f period t = none := by
  unfold owin; exact if_neg hp

theorem gainAt_nonneg (prices : Col) (t : ℕ) : 0 ≤ gainAt prices t := by
  unfold gainAt
  cases diffAt prices t with
  | none => exact le_refl 0
  | some d =>
    by_cases hd : 0 < d
    · simpa [hd] using hd.le
    · simp [hd]

theorem lossAt_nonneg (prices : Col) (t : ℕ) : 0 ≤ lossAt prices t := by
  unfold lossAt
  cases diffAt prices t with
  | none => exact le_refl 0
  | some d =>
    by_cases hd : d < 0
    · simp only [if_pos hd]; linarith
    · simp [hd]

theorem gainMeanAt_nonneg {prices : Col} {period t : ℕ} {G : ℚ}
    (h : gainMeanAt prices period t = some G) : 0 ≤ G := by
  unfold gainMeanAt at h
  by_cases hp : period ≤ t + 1
  · rw [owin_total _ _ _ hp] at h
    have h' : some (meanQ ((List.range period).map (fun j => gainAt prices (t - j)))) =
        some G := h
    cases Option.some.inj h'
    exact meanQ_nonneg _ (by
      intro x hx
      obtain ⟨j, _, rfl⟩ := List.mem_map.mp hx
      exact gainAt_nonneg _ _)
  · rw [owin_none _ hp] at h
    exact absurd h (by simp)

theorem lossMeanAt_nonneg {prices : Col} {period t : ℕ} {L : ℚ}
    (h : lossMeanAt prices period t = some L) : 0 ≤ L := by
  unfold lossMeanAt at h
  by_cases hp : period ≤ t + 1
  · rw [owin_total _ _ _ hp] at h
    have h' : some (meanQ ((List.range period).map (fun j => lossAt prices (t - j)))) =
        some L := h
    cases Option.some.inj h'
    exact meanQ_nonneg _ (by
      intro x hx
      obtain ⟨j, _, rfl⟩ := List.mem_map.mp hx
      exact lossAt_nonneg _ _)
  · rw [owin_none _ hp] at h
    exact absurd h (by simp)

/-- Any defined RSI value lies in `[0, 100]`: with `gain ≥ 0` and
`loss > 0` the ratio `rs = gain/loss` is nonnegative, so
`0 < 100/(1+rs) ≤ 100`. -/
theorem rsi_some_bounds {prices : Col} {period t : ℕ} {r : ℚ}
    (h : calculate_rsi prices period t = some r) : 0 ≤ r ∧ r ≤ 100 := by
  unfold calculate_rsi at h
  cases hg : gainMeanAt prices period t with
  | none => rw [hg] at h; exact absurd h (by simp)
  | some g =>
    cases hl : lossMeanAt prices period t with
    | none => rw [hg, hl] at h; exact absurd h (by simp)
    | some l =>
      rw [hg, hl] at h
      by_cases hz : l = 0
      · simp [hz] at h
      · have h' : (if l = 0 then (none : Cell)
            else some (100 - 100 / (1 + g / l))) = some r := h
        rw [if_neg hz] at h'
        have hr := Option.some.inj h'
        have hG : 0 ≤ g := gainMeanAt_nonneg hg
        have hL : 0 < l := lt_of_le_of_ne (lossMeanAt_nonneg hl) (Ne.symm hz)
        have hrs : 0 ≤ g / l := div_nonneg hG hL.le
        have hpos : 0 < (100 : ℚ) / (1 + g / l) := by positivity
        have hle : (100 : ℚ) / (1 + g / l) ≤ 100 :=
          div_le_self (by norm_num) (by linarith)
        constructor <;> linarith

/-- Decomposition of a defined Greed-Fear value into its four components. -/
theorem greed_fear_some {closes volume : Col} {p1 p2 p3 p4 t : ℕ} {g : ℚ}
    (h : greed_fear_at closes volume p1 p2 p3 p4 t = some g) :
    ∃ r b vs m, calculate_rsi closes p1 t = some r ∧
      bollinger_position closes p2 t = some b ∧
      volume_surge volume p3 t = some vs ∧
      price_momentum closes p4 t = some m ∧
      g = r * 0.3 + (b * 100) * 0.25 + npClip ((vs - 0.5) * 100) * 0.25 +
          npClip ((m + 0.1) * 500) * 0.2 := by
  unfold greed_fear_at at h
  cases hr : calculate_rsi closes p1 t with
  | none => rw [hr] at h; exact absurd h (by simp)
  | some r =>
    cases hb : bollinger_position closes p2 t with
    | none => rw [hr, hb] at h; exact absurd h (by simp)
    | some b =>
      cases hv : volume_surge volume p3 t with
      | none => rw [hr, hb, hv] at h; exact absurd h (by simp)
      | some vs =>
        cases hm : price_momentum closes p4 t with
        | none => rw [hr, hb, hv, hm] at h; exact absurd h (by simp)
        | some m =>
          rw [hr, hb, hv, hm] at h
          have h' : some (r * 0.3 + (b * 100) * 0.25 + npClip ((vs - 0.5) * 100) * 0.25 +
              npClip ((m + 0.1) * 500) * 0.2) = some g := h
          exact ⟨r, b, vs, m, rfl, rfl, rfl, rfl, (Option.some.inj h').symm⟩

theorem npClip_mem (x : ℚ) : 0 ≤ npClip x ∧ npClip x ≤ 100 :=
  ⟨le_max_left 0 _, max_le (by norm_num) (min_le_right x 100)⟩



/-! ## Concrete series used by counterexamples and witnesses -/

/-- 20 closing prices: five head bars, a flat stretch of 12s, and a crash
to 1 on the last bar.  The 20-bar sample variance is exactly 16 (std 4),
the last close sits far below the lower Bollinger band, the last 14 price
changes are non-increasing (RSI = 0), and momentum/volume terms clip to 0. -/
def cexCloses : Col :=
  [some 20, some 20, some 17, some 17, some 17, some 12, some 12, some 12, some 12,
   some 12, some 12, some 12, some 12, some 12, some 12, some 12, some 12, some 12,
   some 12, some 1]

/-- Volumes for `cexCloses`: constant 1000 with a collapse to 100 at the end
(volume surge `100/955 < 0.5`, so the volume term clips to 0). -/
def cexVolume : Col :=
  [some 1000, some 1000, some 1000, some 1000, some 1000, some 1000, some 1000,
   some 1000, some 1000, some 1000, some 1000, some 1000, some 1000, some 1000,
   some 1000, some 1000, some 1000, some 1000, some 1000, some 100]

/-- 20 closing prices whose 20-bar sample variance is exactly 100 (std 10)
and whose last close lies inside the Bollinger bands (position `17/40`). -/
def witCloses : Col :=
  [some 1, some 1, some 38, some 38, some 38, some 15, some 15, some 15, some 15,
   some 15, some 15, some 15, some 15, some 15, some 15, some 15, some 15, some 15,
   some 15, some 14]

/-- Constant volumes for `witCloses` (volume surge exactly 1). -/
def witVolume : Col :=
  [some 1000, some 1000, some 1000, some 1000, some 1000, some 1000, some 1000,
   some 1000, some 1000, some 1000, some 1000, some 1000, some 1000, some 1000,
   some 1000, some 1000, some 1000, some 1000, some 1000, some 1000]

/-- 14 strictly decreasing closes, used to exhibit a defined RSI. -/
def c4Closes : Col :=
  [some 14, some 13, some 12, some 11, some 10, some 9, some 8, some 7, some 6,
   some 5, some 4, some 3, some 2, some 1]

/-! ## C2 -/

/-- C2 (counterexample): the Greed-Fear Index is *not* always in `[0,100]`
on series where it is defined.  On `cexCloses`/`cexVolume` all four
component indicators are defined at the last bar (RSI `= 0`, Bollinger
position `= -1/4`, volume surge `= 20/191`, momentum `= -11/12`), yet the
index evaluates to `-25/4 < 0`: the `BB_Norm = BB_Position * 100` term is
not clamped, so a close below the lower band drives the index negative. -/
theorem C2_counterexample :
    greed_fear_index_at cexCloses cexVolume 19 = some (-25/4) ∧
      ((-25/4 : ℚ) < 0 ∧ bollinger_position cexCloses 20 19 = some (-1/4)) := by
  refine ⟨by decide, by norm_num, by decide⟩

/-- C2 (amended): whenever the Greed-Fear Index is defined *and* the
Bollinger position lies in `[0, 1]` (the close is inside the bands — the
only component whose normalisation `BB_Position * 100` is not clamped),
the index lies in `[0, 100]`. -/
theorem C2_greed_fear_bounded (closes volume : Col) (t : ℕ) (g b : ℚ)
    (hg : greed_fear_index_at closes volume t = some g)
    (hb : bollinger_position closes 20 t = some b)
    (hb0 : 0 ≤ b) (hb1 : b ≤ 1) : 0 ≤ g ∧ g ≤ 100 := by
  obtain ⟨r, b', vs, m, hr, hb', hv, hm, hsum⟩ := greed_fear_some hg
  have hbb : b' = b := Option.some.inj (hb'.symm.trans hb)
  subst hbb
  obtain ⟨hr0, hr1⟩ := rsi_some_bounds hr
  obtain ⟨hv0, hv1⟩ := npClip_mem ((vs - 0.5) * 100)
  obtain ⟨hm0, hm1⟩ := npClip_mem ((m + 0.1) * 500)
  constructor <;> [nlinarith; nlinarith]

/-- C2 (witness for the amended theorem) at `witCloses`/`witVolume`,
where the index is `635/24` and the Bollinger position is `17/40`. -/
theorem C2_greed_fear_bounded_witness :
    greed_fear_index_at witCloses witVolume 19 = some (635/24) ∧
      bollinger_position witCloses 20 19 = some (17/40) ∧
      (0 ≤ (17/40 : ℚ) ∧ (17/40 : ℚ) ≤ 1) ∧
      (0 ≤ (635/24 : ℚ) ∧ (635/24 : ℚ) ≤ 100) :=
  ⟨by decide, by decide, ⟨by norm_num, by norm_num⟩,
    C2_greed_fear_bounded witCloses witVolume 19 (635/24) (17/40)
      (by decide) (by decide) (by norm_num) (by norm_num)⟩

/-! ## C3 -/

/-- C3: wherever the Greed-Fear Index is defined it equals
`0.30*RSI + 0.25*(BollingerPosition*100) +
 0.25*clip((VolumeSurge-0.5)*100, 0, 100) +
 0.20*clip((PriceMomentum+0.1)*500, 0, 100)`,
with the RSI term entering unrescaled. -/
theorem C3_greed_fear_formula (closes volume : Col) (p1 p2 p3 p4 t : ℕ) (g : ℚ)
    (hg : greed_fear_at closes volume p1 p2 p3 p4 t = some g) :
    ∃ r b vs m, calculate_rsi closes p1 t = some r ∧
      bollinger_position closes p2 t = some b ∧
      volume_surge volume p3 t = some vs ∧
      price_momentum closes p4 t = some m ∧
      g = 0.30 * r + 0.25 * (b * 100) + 0.25 * npClip ((vs - 0.5) * 100) +
          0.20 * npClip ((m + 0.1) * 500) := by
  obtain ⟨r, b, vs, m, hr, hb, hv, hm, hsum⟩ := greed_fear_some hg
  exact ⟨r, b, vs, m, hr, hb, hv, hm, by rw [hsum]; ring⟩

/-- C3 (witness) at `witCloses`/`witVolume`, period defaults `14 20 20 10`,
last bar: the index value `635/24` decomposes per the formula. -/
theorem C3_greed_fear_formula_witness :
    greed_fear_at witCloses witVolume 14 20 20 10 19 = some (635/24) ∧
      (∃ r b vs m, calculate_rsi witCloses 14 19 = some r ∧
        bollinger_position witCloses 20 19 = some b ∧
        volume_surge witVolume 20 19 = some vs ∧
        price_momentum witCloses 10 19 = some m ∧
        (635/24 : ℚ) = 0.30 * r + 0.25 * (b * 100) + 0.25 * npClip ((vs - 0.5) * 100) +
            0.20 * npClip ((m + 0.1) * 500)) :=
  ⟨by decide, C3_greed_fear_formula witCloses witVolume 14 20 20 10 19 (635/24) (by decide)⟩

/-! ## C4 -/

/-- C4: at every position where the trailing RSI window is complete
(`lossMeanAt` is defined) and the mean loss is nonzero, the RSI value
`100 - 100/(1 + gain/loss)` is defined and lies in `[0, 100]`. -/
theorem C4_rsi_bounded (prices : Col) (period t : ℕ) (L : ℚ)
    (hwin : lossMeanAt prices period t = some L) (hL : L ≠ 0) :
    ∃ r, calculate_rsi prices period t = some r ∧ 0 ≤ r ∧ r ≤ 100 := by
  have hp : period ≤ t + 1 := by
    by_contra hp
    rw [lossMeanAt, owin_none _ hp] at hwin
    exact absurd hwin (by simp)
  have hgm : gainMeanAt prices period t =
      some (meanQ ((List.range period).map (fun j => gainAt prices (t - j)))) := by
    rw [gainMeanAt, owin_total _ _ _ hp]; rfl
  have hsome : calculate_rsi prices period t =
      some (100 - 100 / (1 + meanQ ((List.range period).map (fun j => gainAt prices (t - j))) / L)) := by
    unfold calculate_rsi
    rw [hgm, hwin]
    show (if L = 0 then (none : Cell) else some _) = some _
    rw [if_neg hL]
  obtain ⟨h0, h1⟩ := rsi_some_bounds hsome
  exact ⟨_, hsome, h0, h1⟩

/-- C4 (witness): on 14 strictly decreasing closes the 14-bar loss mean at
the last bar is `13/14 ≠ 0`, and the RSI is defined and in `[0,100]`. -/
theorem C4_rsi_bounded_witness :
    lossMeanAt c4Closes 14 13 = some (13/14) ∧ ((13/14 : ℚ) ≠ 0) ∧
      ∃ r, calculate_rsi c4Closes 14 13 = some r ∧ 0 ≤ r ∧ r ≤ 100 :=
  ⟨by decide, by norm_num,
    C4_rsi_bounded c4Closes 14 13 (13/14) (by decide) (by norm_num)⟩



/-! ## Calendar dates and the sector heatmap transformer
(`src/pages/sectorplot.py`, `create_sector_heatmap_visualization`) -/

/-- A calendar date (what `pd.to_datetime` yields, compared field-wise). -/
structure CalDate where
  year : ℤ
  month : ℕ
  day : ℕ
deriving DecidableEq

/-- Date comparison, lexicographic on (year, month, day). -/
def dateLE (a b : CalDate) : Bool :=
  decide (a.year < b.year ∨ (a.year = b.year ∧
    (a.month < b.month ∨ (a.month = b.month ∧ a.day ≤ b.day))))

/-- `date.dt.to_period('M')`: the calendar month bucket of a date. -/
def month_of (d : CalDate) : ℤ × ℕ := (d.year, d.month)

/-- One row of `all_sector_data` (columns `date`, `value_proxy`, `sector`). -/
structure ProxyRow where
  date : CalDate
  value_proxy : ℚ
  sector : String
deriving DecidableEq

/-- `groupby(['month','sector'])['value_proxy'].sum()` read at one
`(sector, month)` cell; a combination absent from the data sums to `0`,
which is also the value `fillna(0)` puts into the dense pivot. -/
def monthly_sum (rows : List ProxyRow) (sec : String) (mk : ℤ × ℕ) : ℚ :=
  ((rows.filter (fun r => decide (r.sector = sec) && decide (month_of r.date = mk))).map
    (·.value_proxy)).sum

/-- The row index of the pivot: the distinct sectors of the input. -/
def heat_sectors (rows : List ProxyRow) : List String := (rows.map (·.sector)).dedup

/-- One month column of the dense pivot matrix. -/
def month_column (rows : List ProxyRow) (mk : ℤ × ℕ) : List ℚ :=
  (heat_sectors rows).map (fun sec => monthly_sum rows sec mk)

/-- The average rank (`method='average'`) of value `v` within the values
`l`: ties occupy consecutive ranks and share their mean, which equals
`#{x < v} + (#{x = v} + 1)/2`. -/
def avg_rank (l : List ℚ) (v : ℚ) : ℚ :=
  (l.countP (fun x => decide (x < v)) : ℚ) + ((l.countP (fun x => decide (x = v)) : ℚ) + 1) / 2

/-- `rank(pct=True)`: the average rank divided by the number of entries. -/
def pct_rank (l : List ℚ) (v : ℚ) : ℚ := avg_rank l v / (l.length : ℚ)

/-- `heatmap_data.rank(pct=True) * 100` at cell `(sec, mk)`.
`DataFrame.rank` defaults to `axis=0`, so the percentile of a cell is
computed within its own **month column** (across sectors of that month),
not over the whole matrix. -/
def heatmap_percentile (rows : List ProxyRow) (sec : String) (mk : ℤ × ℕ) : ℚ :=
  pct_rank (month_column rows mk) (monthly_sum rows sec mk) * 100

/-- Four value-proxy rows: two sectors over two months, with both February
sums far larger than both January sums. -/
def c1rows : List ProxyRow :=
  [⟨⟨2020, 1, 5⟩, 1, "A"⟩, ⟨⟨2020, 1, 9⟩, 2, "B"⟩,
   ⟨⟨2020, 2, 5⟩, 100, "A"⟩, ⟨⟨2020, 2, 9⟩, 200, "B"⟩]

/-- C1 (counterexample): the percentile transform of the heatmap is *not*
computed over the whole matrix: `DataFrame.rank(pct=True)` ranks each month
column separately.  In `c1rows`, the cell (A, 2020-02) has raw sum `100`,
strictly larger than cell (B, 2020-01) with raw sum `2`, yet its percentile
is `50 < 100`: cross-month monotonicity fails. -/
theorem C1_counterexample :
    monthly_sum c1rows "B" (2020, 1) < monthly_sum c1rows "A" (2020, 2) ∧
      heatmap_percentile c1rows "A" (2020, 2) = 50 ∧
      heatmap_percentile c1rows "B" (2020, 1) = 100 ∧
      heatmap_percentile c1rows "A" (2020, 2) < heatmap_percentile c1rows "B" (2020, 1) := by
  refine ⟨by decide, by decide, by decide, by decide⟩

theorem countP_lt_add_countP_eq (l : List ℚ) (v : ℚ) :
    l.countP (fun x => decide (x < v)) + l.countP (fun x => decide (x = v)) =
      l.countP (fun x => decide (x ≤ v)) := by
  induction l with
  | nil => rfl
  | cons x xs ih =>
    rcases lt_trichotomy x v with h | h | h
    · simp only [List.countP_cons, decide_eq_true_eq, h, ne_of_lt h, le_of_lt h]
      simp
      omega
    · subst h
      simp only [List.countP_cons, decide_eq_true_eq, lt_irrefl, le_refl]
      simp
      omega
    · simp only [List.countP_cons, decide_eq_true_eq, lt_asymm h, ne_of_gt h,
        not_le_of_gt h]
      simp
      omega

/-- C1 (amended): within one month column the percentile transform is
monotone: a strictly larger raw monthly sum receives a percentile at least
as large.  (Cross-column comparisons, as the claim stated them, fail — see
the counterexample.) -/
theorem C1_percentile_monotone_within_month (rows : List ProxyRow)
    (sec1 sec2 : String) (mk : ℤ × ℕ)
    (h : monthly_sum rows sec2 mk < monthly_sum rows sec1 mk) :
    heatmap_percentile rows sec2 mk ≤ heatmap_percentile rows sec1 mk := by
  unfold heatmap_percentile pct_rank
  have hrank : avg_rank (month_column rows mk) (monthly_sum rows sec2 mk) ≤
      avg_rank (month_column rows mk) (monthly_sum rows sec1 mk) := by
    unfold avg_rank
    have hmono : (month_column rows mk).countP
          (fun x => decide (x ≤ monthly_sum rows sec2 mk)) ≤
        (month_column rows mk).countP
          (fun x => decide (x < monthly_sum rows sec1 mk)) := by
      refine List.countP_mono_left (fun x _ hx => ?_)
      simp only [decide_eq_true_eq] at hx ⊢
      exact lt_of_le_of_lt hx h
    have hsplit := countP_lt_add_countP_eq (month_column rows mk) (monthly_sum rows sec2 mk)
    have hc1 : (0:ℚ) ≤ ((month_column rows mk).countP
        (fun x => decide (x = monthly_sum rows sec1 mk)) : ℚ) := by positivity
    have hmono' : ((month_column rows mk).countP
          (fun x => decide (x < monthly_sum rows sec2 mk)) : ℚ) +
        ((month_column rows mk).countP
          (fun x => decide (x = monthly_sum rows sec2 mk)) : ℚ) ≤
        ((month_column rows mk).countP
          (fun x => decide (x < monthly_sum rows sec1 mk)) : ℚ) := by
      rw [show ((month_column rows mk).countP
            (fun x => decide (x < monthly_sum rows sec2 mk)) : ℚ) +
          ((month_column rows mk).countP
            (fun x => decide (x = monthly_sum rows sec2 mk)) : ℚ) =
          (((month_column rows mk).countP (fun x => decide (x < monthly_sum rows sec2 mk)) +
            (month_column rows mk).countP (fun x => decide (x = monthly_sum rows sec2 mk)) : ℕ) : ℚ)
        from by push_cast; ring]
      rw [hsplit]
      exact_mod_cast hmono
    linarith
  rcases Nat.eq_zero_or_pos (month_column rows mk).length with h0 | hpos
  · simp [h0]
  · have hlen : (0:ℚ) < ((month_column rows mk).length : ℚ) := by exact_mod_cast hpos
    have := (div_le_div_iff_of_pos_right hlen).mpr hrank
    nlinarith

/-- C1 (witness for the amended theorem): within the January column of
`c1rows`, sector A's sum 1 is below sector B's sum 2 and its percentile
(50) is below B's (100). -/
theorem C1_percentile_monotone_witness :
    monthly_sum c1rows "A" (2020, 1) < monthly_sum c1rows "B" (2020, 1) ∧
      heatmap_percentile c1rows "A" (2020, 1) ≤ heatmap_percentile c1rows "B" (2020, 1) :=
  ⟨by decide, C1_percentile_monotone_within_month c1rows "B" "A" (2020, 1) (by decide)⟩


/-! ## Sector value proxy (`src/pages/sectorplot.py`,
`calculate_sector_value_proxy`) -/

/-- One row of a per-ticker processed OHLCV table (the columns this page
reads; further columns of the CSV play no role here). -/
structure StockBar where
  Date : CalDate
  Open : ℚ
  High : ℚ
  Low : ℚ
  Close : ℚ
  Volume : ℚ
deriving DecidableEq

/-- `(df['Date'] >= start) & (df['Date'] <= end)`. -/
def inRange (s e d : CalDate) : Bool := dateLE s d && dateLE d e

/-- `stock_info[stock_info['sector'] == sector]['ticker']` — the tickers
tagged with `sector` (rows of `stock_info` modelled as
(ticker, sector); the zip/city columns are unused by this computation). -/
def sector_tickers (stock_info : List (String × String)) (sector : String) : List String :=
  (stock_info.filter (fun p => decide (p.2 = sector))).map (·.1)

/-- The concatenated `(Date, value_proxy)` rows of
`calculate_sector_value_proxy` before grouping: for each sector ticker
present in `stock_data`, restrict its table to the date range and compute
`(Close - Open) * Volume` per bar.  A ticker absent from `stock_data`
contributes nothing. -/
def value_proxy_rows (stock_data : List (String × List StockBar))
    (stock_info : List (String × String)) (sector : String) (s e : CalDate) :
    List (CalDate × ℚ) :=
  (sector_tickers stock_info sector).flatMap (fun tk =>
    match stock_data.lookup tk with
    | some df => (df.filter (fun b => inRange s e b.Date)).map
        (fun b => (b.Date, (b.Close - b.Open) * b.Volume))
    | none => [])

/-- `groupby('Date')['value_proxy'].sum()` read at one date. -/
def group_sum (rows : List (CalDate × ℚ)) (d : CalDate) : ℚ :=
  ((rows.filter (fun r => decide (r.1 = d))).map (·.2)).sum

/-- The grouped output of `calculate_sector_value_proxy`: one row per
distinct date carrying the summed value proxy. -/
def calculate_sector_value_proxy (stock_data : List (String × List StockBar))
    (stock_info : List (String × String)) (sector : String) (s e : CalDate) :
    List (CalDate × ℚ) :=
  let rows := value_proxy_rows stock_data stock_info sector s e
  ((rows.map (·.1)).dedup).map (fun d => (d, group_sum rows d))

theorem group_sum_append (a b : List (CalDate × ℚ)) (d : CalDate) :
    group_sum (a ++ b) d = group_sum a d + group_sum b d := by
  simp [group_sum, List.filter_append]

theorem group_sum_flatMap {α : Type} (l : List α) (f : α → List (CalDate × ℚ)) (d : CalDate) :
    group_sum (l.flatMap f) d = (l.map (fun x => group_sum (f x) d)).sum := by
  induction l with
  | nil => rfl
  | cons x xs ih => simp [List.flatMap_cons, group_sum_append, ih]

theorem group_sum_proxy (df : List StockBar) (s e d : CalDate) :
    group_sum ((df.filter (fun b => inRange s e b.Date)).map
        (fun b => (b.Date, (b.Close - b.Open) * b.Volume))) d =
      ((df.filter (fun b => inRange s e b.Date && decide (b.Date = d))).map
        (fun b => (b.Close - b.Open) * b.Volume)).sum := by
  induction df with
  | nil => rfl
  | cons b rest ih =>
    simp only [group_sum, List.filter_cons] at ih ⊢
    cases h1 : inRange s e b.Date with
    | false => simpa using ih
    | true =>
      cases h2 : decide (b.Date = d) with
      | false => simpa [h2] using ih
      | true => simpa [h2] using ih

/-- Example tickers for the worked scenario of the claim. -/
def exInfo : List (String × String) := [("A", "Tech"), ("B", "Tech")]

/-- Instrument A: open 10, close 12, volume 1000; instrument B: open 5,
close 4, volume 500 — both on 2020-03-02. -/
def exData : List (String × List StockBar) :=
  [("A", [⟨⟨2020, 3, 2⟩, 10, 12, 10, 12, 1000⟩]),
   ("B", [⟨⟨2020, 3, 2⟩, 5, 5, 4, 4, 500⟩])]

/-- C5: the per-date sector value proxy equals the sum, over the sector's
tickers, of `(Close - Open) * Volume` of their bars on that date inside the
range; every row of `calculate_sector_value_proxy` carries exactly that
per-date sum; and on the worked example (A: 10→12 × 1000, B: 5→4 × 500,
same sector and date) the date's total is `2000 - 500 = 1500`. -/
theorem C5_sector_value_proxy :
    (∀ (stock_data : List (String × List StockBar))
       (stock_info : List (String × String)) (sector : String) (s e d : CalDate),
      group_sum (value_proxy_rows stock_data stock_info sector s e) d =
        ((sector_tickers stock_info sector).map (fun tk =>
          ((((stock_data.lookup tk).getD []).filter
              (fun b => inRange s e b.Date && decide (b.Date = d))).map
            (fun b => (b.Close - b.Open) * b.Volume)).sum)).sum) ∧
    (∀ (stock_data : List (String × List StockBar))
       (stock_info : List (String × String)) (sector : String) (s e : CalDate)
       (p : CalDate × ℚ), p ∈ calculate_sector_value_proxy stock_data stock_info sector s e →
      p.2 = group_sum (value_proxy_rows stock_data stock_info sector s e) p.1) ∧
    calculate_sector_value_proxy exData exInfo "Tech" ⟨2020, 1, 1⟩ ⟨2020, 12, 31⟩ =
      [(⟨2020, 3, 2⟩, 1500)] := by
  refine ⟨?_, ?_, by decide⟩
  · intro stock_data stock_info sector s e d
    rw [value_proxy_rows, group_sum_flatMap]
    congr 1
    refine List.map_congr_left (fun tk _ => ?_)
    cases h : stock_data.lookup tk with
    | none => simp [h, group_sum]
    | some df => simp only [h, Option.getD_some]; exact group_sum_proxy df s e d
  · intro stock_data stock_info sector s e p hp
    unfold calculate_sector_value_proxy at hp
    obtain ⟨d, _, rfl⟩ := List.mem_map.mp hp
    rfl

/-- C5 (witness): the membership conjunct instantiated on the worked
example: the single output row (2020-03-02, 1500) carries the grouped
per-date sum. -/
theorem C5_sector_value_proxy_witness :
    ((⟨2020, 3, 2⟩, 1500) : CalDate × ℚ) ∈
        calculate_sector_value_proxy exData exInfo "Tech" ⟨2020, 1, 1⟩ ⟨2020, 12, 31⟩ ∧
      ((⟨2020, 3, 2⟩, 1500) : CalDate × ℚ).2 =
        group_sum (value_proxy_rows exData exInfo "Tech" ⟨2020, 1, 1⟩ ⟨2020, 12, 31⟩)
          (⟨2020, 3, 2⟩ : CalDate) :=
  ⟨by decide, C5_sector_value_proxy.2.1 exData exInfo "Tech" ⟨2020, 1, 1⟩ ⟨2020, 12, 31⟩
    (⟨2020, 3, 2⟩, 1500) (by decide)⟩


/-! ## Correlation engine (`src/pages/sectorplot.py`,
`calculate_correlation_analysis`) -/

/-- `pd.merge(sector_data, macro_df, left_on='date', right_on='Date',
how='inner')`, projected to the joined `(value_proxy, processed_value)`
columns: every row of the left series is paired with every row of the
right series that carries the same date. -/
def mergeOn (a b : List (CalDate × ℚ)) : List (ℚ × ℚ) :=
  a.flatMap (fun x => (b.filter (fun y => decide (y.1 = x.1))).map (fun y => (x.2, y.2)))

/-- Left column of a joined table. -/
def colX (m : List (ℚ × ℚ)) : List ℚ := m.map (·.1)

/-- Right column of a joined table. -/
def colY (m : List (ℚ × ℚ)) : List ℚ := m.map (·.2)

/-- Centered sum of squares of the left column. -/
def sxx (m : List (ℚ × ℚ)) : ℚ := (m.map (fun p => (p.1 - meanQ (colX m)) ^ 2)).sum

/-- Centered sum of squares of the right column. -/
def syy (m : List (ℚ × ℚ)) : ℚ := (m.map (fun p => (p.2 - meanQ (colY m)) ^ 2)).sum

/-- Centered cross sum. -/
def sxy (m : List (ℚ × ℚ)) : ℚ :=
  (m.map (fun p => (p.1 - meanQ (colX m)) * (p.2 - meanQ (colY m)))).sum

/-- `scipy.stats.pearsonr` coefficient
`Σ(x-x̄)(y-ȳ) / (√Σ(x-x̄)² · √Σ(y-ȳ)²)` (zero variance, a NaN in the
source, is idealised through total division by zero = 0). -/
def pearson_r (m : List (ℚ × ℚ)) : ℚ := sxy m / (ratSqrt (sxx m) * ratSqrt (syy m))

/-- The qualitative strength label of `calculate_correlation_analysis`. -/
def strength_of (r : ℚ) : String :=
  if 0.7 < |r| then "Strong" else if 0.3 < |r| then "Moderate" else "Weak"

/-- Result of a successful correlation analysis.  The p-value (scipy's
t-distribution tail probability, a transcendental function) is outside the
rational embedding and unused by every claim; the `none` result below
stands for the source's `(None, None, None)` return. -/
structure CorrResult where
  coefficient : ℚ
  strength : String
deriving DecidableEq

/-- `calculate_correlation_analysis(sector_data, macro_df, ...)`: `None`
on an empty input or on fewer than 2 joined rows, otherwise the Pearson
coefficient with its strength label. -/
def calculate_correlation_analysis (sector_data econSeries : List (CalDate × ℚ)) :
    Option CorrResult :=
  if sector_data = [] ∨ econSeries = [] then none
  else if (mergeOn sector_data econSeries).length < 2 then none
  else some ⟨pearson_r (mergeOn sector_data econSeries),
             strength_of (pearson_r (mergeOn sector_data econSeries))⟩

/-- C6: whenever the inner join of the two series has fewer than 2 rows
(including zero date overlap), the correlation analysis returns the
explicit insufficient-data result `none` — no coefficient, no p-value, no
strength label. -/
theorem C6_insufficient_data (a b : List (CalDate × ℚ))
    (h : (mergeOn a b).length < 2) : calculate_correlation_analysis a b = none := by
  unfold calculate_correlation_analysis
  by_cases he : a = [] ∨ b = []
  · rw [if_pos he]
  · rw [if_neg he, if_pos h]

/-- Two series with no overlapping dates, for the C6 witness. -/
def c6Left : List (CalDate × ℚ) := [(⟨2020, 1, 1⟩, 1), (⟨2020, 1, 2⟩, 2)]

/-- Disjoint-date right series for the C6 witness. -/
def c6Right : List (CalDate × ℚ) := [(⟨2021, 5, 5⟩, 7), (⟨2021, 5, 6⟩, 8)]

/-- C6 (witness): two nonempty series with zero overlapping dates join to
an empty table and the analysis returns `none`. -/
theorem C6_insufficient_data_witness :
    (mergeOn c6Left c6Right).length < 2 ∧
      calculate_correlation_analysis c6Left c6Right = none :=
  ⟨by decide, C6_insufficient_data c6Left c6Right (by decide)⟩

/-! Machinery for the symmetry of the join and of the Pearson sums. -/

theorem sum_map_add {α : Type} (l : List α) (f g : α → ℚ) :
    (l.map (fun x => f x + g x)).sum = (l.map f).sum + (l.map g).sum := by
  induction l with
  | nil => simp
  | cons x xs ih => simp [ih]; ring

theorem sum_map_zero {α : Type} (l : List α) : (l.map (fun _ => (0:ℚ))).sum = 0 := by
  induction l <;> simp [*]

theorem sum_map_one {α : Type} (l : List α) :
    (l.map (fun _ => (1:ℚ))).sum = (l.length : ℚ) := by
  induction l with
  | nil => simp
  | cons x xs ih => simp [ih]; ring

theorem sum_comm_lists {α β : Type} (A : List α) (B : List β) (h : α → β → ℚ) :
    (A.map (fun x => (B.map (h x)).sum)).sum =
      (B.map (fun y => (A.map (fun x => h x y)).sum)).sum := by
  induction A with
  | nil => simp [sum_map_zero]
  | cons x xs ih =>
    simp only [List.map_cons, List.sum_cons, ih]
    rw [← sum_map_add]

theorem sum_map_ite (l : List (CalDate × ℚ)) (c : CalDate) (g : CalDate × ℚ → ℚ) :
    ((l.filter (fun y => decide (y.1 = c))).map g).sum =
      (l.map (fun y => if y.1 = c then g y else 0)).sum := by
  induction l with
  | nil => rfl
  | cons y ys ih =>
    simp only [List.filter_cons]
    by_cases hy : y.1 = c
    · simp [hy, ih]
    · simp [hy, ih]

theorem sum_mergeOn_expand (u v : List (CalDate × ℚ)) (G : ℚ → ℚ → ℚ) :
    ((mergeOn u v).map (fun p => G p.1 p.2)).sum =
      (u.map (fun x => (v.map (fun y => if y.1 = x.1 then G x.2 y.2 else 0)).sum)).sum := by
  unfold mergeOn
  induction u with
  | nil => rfl
  | cons x xs ih =>
    simp only [List.flatMap_cons, List.map_append, List.sum_append, List.map_cons,
      List.sum_cons, ih, List.map_map]
    congr 1
    exact sum_map_ite v x.1 (fun y => G x.2 y.2)

theorem msum_mergeOn_swap (a b : List (CalDate × ℚ)) (F : ℚ → ℚ → ℚ) :
    ((mergeOn a b).map (fun p => F p.1 p.2)).sum =
      ((mergeOn b a).map (fun p => F p.2 p.1)).sum := by
  rw [sum_mergeOn_expand a b F, sum_mergeOn_expand b a (fun x y => F y x)]
  rw [sum_comm_lists]
  refine congrArg List.sum (List.map_congr_left fun y _ => ?_)
  refine congrArg List.sum (List.map_congr_left fun x _ => ?_)
  exact if_congr eq_comm rfl rfl

theorem length_mergeOn_swap (a b : List (CalDate × ℚ)) :
    (mergeOn b a).length = (mergeOn a b).length := by
  have h := msum_mergeOn_swap a b (fun _ _ => (1:ℚ))
  rw [sum_map_one, sum_map_one] at h
  exact_mod_cast h.symm

theorem colX_sum_swap (a b : List (CalDate × ℚ)) :
    (colX (mergeOn a b)).sum = (colY (mergeOn b a)).sum :=
  msum_mergeOn_swap a b (fun x _ => x)

theorem colY_sum_swap (a b : List (CalDate × ℚ)) :
    (colY (mergeOn a b)).sum = (colX (mergeOn b a)).sum :=
  msum_mergeOn_swap a b (fun _ y => y)

theorem meanX_swap (a b : List (CalDate × ℚ)) :
    meanQ (colX (mergeOn a b)) = meanQ (colY (mergeOn b a)):= by
  unfold meanQ
  rw [colX_sum_swap, colX, colY, List.length_map, List.length_map, length_mergeOn_swap]

theorem meanY_swap (a b : List (CalDate × ℚ)) :
    meanQ (colY (mergeOn a b)) = meanQ (colX (mergeOn b a)) := by
  unfold meanQ
  rw [colY_sum_swap, colX, colY, List.length_map, List.length_map, length_mergeOn_swap]

theorem sxy_swap (a b : List (CalDate × ℚ)) :
    sxy (mergeOn a b) = sxy (mergeOn b a) := by
  unfold sxy
  rw [msum_mergeOn_swap a b
    (fun x y => (x - meanQ (colX (mergeOn a b))) * (y - meanQ (colY (mergeOn a b))))]
  rw [meanX_swap a b, meanY_swap a b]
  exact congrArg List.sum (List.map_congr_left fun p _ => mul_comm _ _)

theorem sxx_swap (a b : List (CalDate × ℚ)) :
    sxx (mergeOn a b) = syy (mergeOn b a) := by
  unfold sxx syy
  rw [msum_mergeOn_swap a b (fun x _ => (x - meanQ (colX (mergeOn a b))) ^ 2)]
  rw [meanX_swap a b]

theorem syy_swap (a b : List (CalDate × ℚ)) :
    syy (mergeOn a b) = sxx (mergeOn b a) := by
  unfold sxx syy
  rw [msum_mergeOn_swap a b (fun _ y => (y - meanQ (colY (mergeOn a b))) ^ 2)]
  rw [meanY_swap a b]

theorem pearson_r_swap (a b : List (CalDate × ℚ)) :
    pearson_r (mergeOn a b) = pearson_r (mergeOn b a) := by
  unfold pearson_r
  rw [sxy_swap a b, sxx_swap a b, syy_swap a b,
    mul_comm (ratSqrt (syy (mergeOn b a))) (ratSqrt (sxx (mergeOn b a)))]

theorem mergeOn_nil_right (a : List (CalDate × ℚ)) : mergeOn a [] = [] := by
  induction a <;> simp [mergeOn, List.flatMap_cons, *]

/-- C7: on every pair of series where the correlation is defined (at least
2 joined rows, nonzero variance on each side), swapping the two arguments
leaves the Pearson coefficient unchanged. -/
theorem C7_correlation_symmetry (a b : List (CalDate × ℚ))
    (h2 : 2 ≤ (mergeOn a b).length)
    (hx : sxx (mergeOn a b) ≠ 0) (hy : syy (mergeOn a b) ≠ 0) :
    (calculate_correlation_analysis a b).map CorrResult.coefficient =
      (calculate_correlation_analysis b a).map CorrResult.coefficient := by
  have hne : mergeOn a b ≠ [] := by
    intro hh
    rw [hh] at h2
    exact absurd h2 (by simp)
  have ha : a ≠ [] := by rintro rfl; exact hne rfl
  have hb : b ≠ [] := by rintro rfl; exact hne (mergeOn_nil_right a)
  have h2' : 2 ≤ (mergeOn b a).length := by rw [length_mergeOn_swap]; exact h2
  unfold calculate_correlation_analysis
  have hc1 : ¬(a = [] ∨ b = []) := by simp [ha, hb]
  have hc2 : ¬(b = [] ∨ a = []) := by simp [hb, ha]
  have hl1 : ¬((mergeOn a b).length < 2) := not_lt.mpr h2
  have hl2 : ¬((mergeOn b a).length < 2) := not_lt.mpr h2'
  rw [if_neg hc1, if_neg hl1, if_neg hc2, if_neg hl2, pearson_r_swap a b]

/-- Two perfectly overlapping two-point series for the C7 witness. -/
def c7Left : List (CalDate × ℚ) := [(⟨2020, 1, 1⟩, 1), (⟨2020, 1, 2⟩, 2)]

/-- Right series sharing both dates with `c7Left`. -/
def c7Right : List (CalDate × ℚ) := [(⟨2020, 1, 1⟩, 5), (⟨2020, 1, 2⟩, 9)]

/-- C7 (witness): two overlapping 2-point series with nonzero variances;
the coefficient is the same in both argument orders. -/
theorem C7_correlation_symmetry_witness :
    2 ≤ (mergeOn c7Left c7Right).length ∧
      sxx (mergeOn c7Left c7Right) ≠ 0 ∧ syy (mergeOn c7Left c7Right) ≠ 0 ∧
      (calculate_correlation_analysis c7Left c7Right).map CorrResult.coefficient =
        (calculate_correlation_analysis c7Right c7Left).map CorrResult.coefficient :=
  ⟨by decide, by decide, by decide,
    C7_correlation_symmetry c7Left c7Right (by decide) (by decide) (by decide)⟩


/-! ## Macro-series processing (`src/pages/sectorplot.py`,
`process_macro_data`) -/

/-- The macro variable selected in the UI (`'GDP'`, `'CPI'`,
`'Unemployment Rate'`, `'Fed Funds Rate'`; the fall-through branch for any
other column name behaves like the last two and is not reachable from this
page's selectbox). -/
inductive EconVar where
  | GDP
  | CPI
  | UnemploymentRate
  | FedFundsRate
deriving DecidableEq

/-- One row of the daily macro table (columns read by this page). -/
structure EconRow where
  Date : CalDate
  GDP : ℚ
  CPI : ℚ
  UnemploymentRate : ℚ
  FedFundsRate : ℚ
deriving DecidableEq

/-- `macro_data[(macro_data['Date'] >= start) & (macro_data['Date'] <= end)]`. -/
def rows_in_range (mrows : List EconRow) (s e : CalDate) : List EconRow :=
  mrows.filter (fun q => dateLE s q.Date && dateLE q.Date e)

/-- `Series.pct_change()` of a column: leading entry NaN, then
`(v[i] - v[i-1]) / v[i-1]` (a zero previous value, an IEEE infinity in the
source, is undefined here). -/
def pct_change_list (vals : List ℚ) : List Cell :=
  none :: (vals.zip vals.tail).map
    (fun pv => if pv.1 = 0 then none else some ((pv.2 - pv.1) / pv.1))

/-- `* 100` then `.fillna(0)` applied to a pct-change column. -/
def scale_fillna (l : List Cell) : List ℚ :=
  l.map (fun o => (o.map (· * 100)).getD 0)

/-- `process_macro_data(macro_data, macro_variable, start, end)` restricted
to its `(Date, processed_value)` output: the table is first filtered to the
date range, then GDP and CPI are turned into percent changes × 100 with
NaN replaced by 0, while the rate variables pass through unchanged. -/
def process_macro_data (mrows : List EconRow) (mvar : EconVar) (s e : CalDate) :
    List (CalDate × ℚ) :=
  match mvar with
  | .GDP =>
      ((rows_in_range mrows s e).map (·.Date)).zip
        (scale_fillna (pct_change_list ((rows_in_range mrows s e).map (·.GDP))))
  | .CPI =>
      ((rows_in_range mrows s e).map (·.Date)).zip
        (scale_fillna (pct_change_list ((rows_in_range mrows s e).map (·.CPI))))
  | .UnemploymentRate =>
      (rows_in_range mrows s e).map (fun q => (q.Date, q.UnemploymentRate))
  | .FedFundsRate =>
      (rows_in_range mrows s e).map (fun q => (q.Date, q.FedFundsRate))

/-- C10: for GDP and CPI the processed series is the percent change × 100
computed after restricting to the requested range: (i) the first processed
value inside any range is exactly 0 (the leading NaN of `pct_change`,
filled by `fillna(0)`); (ii) a macro row dated before the range start is
dropped by the filter and influences nothing. -/
theorem C10_macro_pct_change (mvar : EconVar)
    (hv : mvar = EconVar.GDP ∨ mvar = EconVar.CPI)
    (mrows l1 l2 : List EconRow) (r : EconRow) (s e : CalDate)
    (hr : dateLE s r.Date = false) :
    (∀ p rest, process_macro_data mrows mvar s e = p :: rest → p.2 = 0) ∧
      process_macro_data (l1 ++ r :: l2) mvar s e =
        process_macro_data (l1 ++ l2) mvar s e := by
  constructor
  · intro p rest h
    rcases hv with rfl | rfl <;>
    · unfold process_macro_data at h
      cases hf : rows_in_range mrows s e with
      | nil => rw [hf] at h; exact absurd h (by simp)
      | cons q qs =>
        rw [hf] at h
        simp only [List.map_cons, pct_change_list, scale_fillna, List.zip_cons_cons,
          Option.map_none, Option.getD_none] at h
        obtain ⟨rfl, -⟩ := (List.cons_eq_cons).mp h.symm
        rfl
  · have hfil : rows_in_range (l1 ++ r :: l2) s e = rows_in_range (l1 ++ l2) s e := by
      simp [rows_in_range, List.filter_append, List.filter_cons, hr]
    unfold process_macro_data
    cases mvar <;> rw [hfil]

/-- Range start for the C10 witness. -/
def c10s : CalDate := ⟨2020, 1, 1⟩

/-- Range end for the C10 witness. -/
def c10e : CalDate := ⟨2020, 12, 31⟩

/-- An in-range GDP row (2020-02-01, GDP 100). -/
def c10Row0 : EconRow := ⟨⟨2020, 2, 1⟩, 100, 10, 5, 2⟩

/-- An in-range GDP row (2020-03-01, GDP 110). -/
def c10Row1 : EconRow := ⟨⟨2020, 3, 1⟩, 110, 11, 5, 2⟩

/-- A row dated before the range start (2019-06-01). -/
def c10Pre : EconRow := ⟨⟨2019, 6, 1⟩, 7, 3, 4, 1⟩

/-- C10 (witness): on the two-row GDP table the first processed value is 0,
and inserting a pre-range row changes nothing. -/
theorem C10_macro_pct_change_witness :
    ((⟨2020, 2, 1⟩, (0:ℚ)) : CalDate × ℚ).2 = 0 ∧
      process_macro_data ([c10Row0] ++ c10Pre :: [c10Row1]) EconVar.GDP c10s c10e =
        process_macro_data ([c10Row0] ++ [c10Row1]) EconVar.GDP c10s c10e :=
  ⟨(C10_macro_pct_change EconVar.GDP (Or.inl rfl) [c10Row0, c10Row1] [c10Row0] [c10Row1]
      c10Pre c10s c10e (by decide)).1 (⟨2020, 2, 1⟩, (0:ℚ)) [(⟨2020, 3, 1⟩, 10)] (by decide),
   (C10_macro_pct_change EconVar.GDP (Or.inl rfl) [c10Row0, c10Row1] [c10Row0] [c10Row1]
      c10Pre c10s c10e (by decide)).2⟩


/-! ## True range and ATR (`calculate_volatility_metrics`,
`src/pages/4_Risk_Analysis_Wizard.py` lines 120–141 and
`src/pages/mavrovis.py` lines 68–89) -/

/-- `df['H-L'] = df['High'] - df['Low']` at position `t`. -/
def hl_at (high low : Col) (t : ℕ) : Cell := do
  let h ← cellAt high t
  let l ← cellAt low t
  pure (h - l)

/-- `df['H-PC'] = abs(df['High'] - df['Close'].shift(1))` at position `t`
(NaN at `t = 0`: there is no previous close). -/
def hpc_at (high closes : Col) (t : ℕ) : Cell :=
  match t with
  | 0 => none
  | u + 1 => do
      let h ← cellAt high (u + 1)
      let pc ← cellAt closes u
      pure |h - pc|

/-- `df['L-PC'] = abs(df['Low'] - df['Close'].shift(1))` at position `t`. -/
def lpc_at (low closes : Col) (t : ℕ) : Cell :=
  match t with
  | 0 => none
  | u + 1 => do
      let l ← cellAt low (u + 1)
      let pc ← cellAt closes u
      pure |l - pc|

/-- A row-wise `DataFrame.max(axis=1)`: NaN entries are skipped
(`skipna=True` default) and the result is NaN only if every entry is. -/
def row_max (cells : List Cell) : Cell :=
  match cells.reduceOption with
  | [] => none
  | x :: xs => some (xs.foldl max x)

/-- `df['TR'] = df[['H-L','H-PC','L-PC']].max(axis=1)` at position `t`. -/
def tr_at (high low closes : Col) (t : ℕ) : Cell :=
  row_max [hl_at high low t, hpc_at high closes t, lpc_at low closes t]

/-- `df['ATR'] = df['TR'].rolling(window=period).mean()` at position `t`
(the pages use `period = 14`). -/
def atr_at (high low closes : Col) (period t : ℕ) : Cell :=
  (owin (fun i => tr_at high low closes i) period t).map meanQ

theorem optList_isSome (L : List Cell) (h : ∀ x ∈ L, x.isSome) :
    (optList L).isSome := by
  induction L with
  | nil => rfl
  | cons x xs ih =>
    cases x with
    | none => exact absurd (h none (by simp)) (by simp)
    | some v =>
      have := ih (fun y hy => h y (by simp [hy]))
      unfold optList
      cases hx : optList xs with
      | none => rw [hx] at this; exact absurd this (by simp)
      | some w => simp

theorem tr_at_isSome {high low closes : Col} {i : ℕ}
    (hh : (cellAt high i).isSome) (hl : (cellAt low i).isSome) :
    (tr_at high low closes i).isSome := by
  obtain ⟨h0, hh⟩ := Option.isSome_iff_exists.mp hh
  obtain ⟨l0, hl⟩ := Option.isSome_iff_exists.mp hl
  have hhl : hl_at high low i = some (h0 - l0) := by
    unfold hl_at; rw [hh, hl]; rfl
  unfold tr_at row_max
  rw [hhl]
  cases hpc : hpc_at high closes i <;> cases lpc : lpc_at low closes i <;>
    simp [List.reduceOption]

/-- C9: the true range at the first bar is defined and equals
`high - low` (the two previous-close terms are NaN and are skipped by the
row-wise max); consequently ATR is defined at every position `t` with
`period ≤ t + 1` whose highs and lows are all present up to `t`, and is
undefined before the period-th bar. -/
theorem C9_true_range_first_bar :
    (∀ (high low closes : Col) (h0 l0 : ℚ),
        cellAt high 0 = some h0 → cellAt low 0 = some l0 →
        tr_at high low closes 0 = some (h0 - l0)) ∧
    (∀ (high low closes : Col) (period t : ℕ),
        (∀ i ∈ List.range (t + 1), (cellAt high i).isSome ∧ (cellAt low i).isSome) →
        period ≤ t + 1 → (atr_at high low closes period t).isSome) ∧
    (∀ (high low closes : Col) (period u : ℕ), u + 1 < period →
        atr_at high low closes period u = none) := by
  refine ⟨?_, ?_, ?_⟩
  · intro high low closes h0 l0 hh0 hl0
    have hhl : hl_at high low 0 = some (h0 - l0) := by
      unfold hl_at; rw [hh0, hl0]; rfl
    unfold tr_at row_max
    rw [hhl]
    simp [hpc_at, lpc_at, List.reduceOption]
  · intro high low closes period t hpresent hp
    unfold atr_at
    rw [show ∀ (o : Option (List ℚ)), (o.map meanQ).isSome = o.isSome from
      fun o => by cases o <;> rfl]
    unfold owin
    rw [if_pos hp]
    apply optList_isSome
    intro x hx
    obtain ⟨j, -, rfl⟩ := List.mem_map.mp hx
    have hle : t - j < t + 1 := by omega
    obtain ⟨hh, hl⟩ := hpresent (t - j) (List.mem_range.mpr hle)
    exact tr_at_isSome hh hl
  · intro high low closes period u hu
    unfold atr_at
    rw [owin_none _ (by omega)]
    rfl

/-- High column of the two-bar C9 witness series. -/
def c9High : Col := [some 10, some 12]

/-- Low column of the two-bar C9 witness series. -/
def c9Low : Col := [some 7, some 9]

/-- Close column of the two-bar C9 witness series. -/
def c9Close : Col := [some 9, some 11]

/-- C9 (witness): on a two-bar series the first true range is
`10 - 7 = 3`, the 2-bar ATR is defined at the second bar, and undefined at
the first. -/
theorem C9_true_range_first_bar_witness :
    cellAt c9High 0 = some 10 ∧ cellAt c9Low 0 = some 7 ∧
      tr_at c9High c9Low c9Close 0 = some (10 - 7) ∧
      (atr_at c9High c9Low c9Close 2 1).isSome = true ∧
      atr_at c9High c9Low c9Close 2 0 = none :=
  ⟨by decide, by decide,
   C9_true_range_first_bar.1 c9High c9Low c9Close 10 7 (by decide) (by decide),
   C9_true_range_first_bar.2.1 c9High c9Low c9Close 2 1 (by decide) (by decide),
   C9_true_range_first_bar.2.2 c9High c9Low c9Close 2 0 (by decide)⟩


/-! ## The DataFrame augmentation pipeline (C8)

A pandas DataFrame is modelled as an association list of named columns;
`df['X'] = series` replaces an existing column in place or appends a new
one at the end.  The three augmentation functions below mirror the
assignment sequences of `calculate_greed_fear_index`,
`calculate_sentiment_score` and `calculate_volatility_metrics` in
`src/pages/4_Risk_Analysis_Wizard.py`; every derived column is the
pointwise reading of the corresponding series definition above, sized by
the `Close` column (pandas columns share the frame's index). -/

/-- A DataFrame: named numeric columns. -/
abbrev PTable := List (String × Col)

/-- `df[c]` (a missing column, a `KeyError` in pandas, reads as empty). -/
def getCol (df : PTable) (c : String) : Col := (df.lookup c).getD []

/-- `df[c] = v`: replace the column if present, else append it. -/
def setCol : PTable → String → Col → PTable
  | [], c, v => [(c, v)]
  | p :: rest, c, v =>
      if p.1 = c then (c, v) :: rest else p :: setCol rest c v

/-- Elementwise sum of two columns (NaN propagates). -/
def col_add (a b : Col) : Col :=
  List.zipWith (fun x y => match x, y with
    | some x, some y => some (x + y)
    | _, _ => none) a b

/-- `Series.rolling(w).mean()` of an already-computed column. -/
def roll_mean (col : Col) (w t : ℕ) : Cell := (owin (cellAt col) w t).map meanQ

/-- `np.where`-style comparison of two cells (NaN compares `False`). -/
def cell_gt (a b : Cell) : Bool :=
  match a, b with
  | some a, some b => decide (b < a)
  | _, _ => false

/-- Is the cell a value `> c`?  (NaN compares `False`.) -/
def cell_gt_const (a : Cell) (c : ℚ) : Bool :=
  match a with
  | some v => decide (c < v)
  | none => false

/-- Is the cell a value `< c`?  (NaN compares `False`.) -/
def cell_lt_const (a : Cell) (c : ℚ) : Bool :=
  match a with
  | some v => decide (v < c)
  | none => false

/-- The column assignments of `calculate_greed_fear_index` (lines 17–70). -/
def calculate_greed_fear_index (df : PTable) : PTable :=
  let closes := getCol df "Close"
  let vols := getCol df "Volume"
  let n := closes.length
  let d1 := setCol df "RSI" ((List.range n).map (fun t => calculate_rsi closes 14 t))
  let d2 := setCol d1 "BB_Position" ((List.range n).map (fun t => bollinger_position closes 20 t))
  let d3 := setCol d2 "Volume_Surge" ((List.range n).map (fun t => volume_surge vols 20 t))
  let d4 := setCol d3 "Price_Momentum" ((List.range n).map (fun t => price_momentum closes 10 t))
  let d5 := setCol d4 "RSI_Norm" (getCol d4 "RSI")
  let d6 := setCol d5 "BB_Norm" ((getCol d5 "BB_Position").map (Option.map (· * 100)))
  let d7 := setCol d6 "Volume_Norm"
      ((getCol d6 "Volume_Surge").map (Option.map (fun v => npClip ((v - 0.5) * 100))))
  let d8 := setCol d7 "Momentum_Norm"
      ((getCol d7 "Price_Momentum").map (Option.map (fun m => npClip ((m + 0.1) * 500))))
  setCol d8 "Greed_Fear_Index"
      (col_add (col_add (col_add ((getCol d8 "RSI_Norm").map (Option.map (· * 0.3)))
        ((getCol d8 "BB_Norm").map (Option.map (· * 0.25))))
        ((getCol d8 "Volume_Norm").map (Option.map (· * 0.25))))
        ((getCol d8 "Momentum_Norm").map (Option.map (· * 0.2))))

/-- The column assignments of `calculate_sentiment_score` (lines 72–118);
`Sentiment_Score` is written twice (raw, then 3-bar smoothed). -/
def calculate_sentiment_score (df : PTable) : PTable :=
  let closes := getCol df "Close"
  let vols := getCol df "Volume"
  let n := closes.length
  let d1 := setCol df "Price_Change" ((List.range n).map (fun t => price_momentum closes 1 t))
  let d2 := setCol d1 "Price_Change_MA"
      ((List.range n).map (fun t => roll_mean (getCol d1 "Price_Change") 5 t))
  let d3 := setCol d2 "Volume_Price_Sentiment"
      ((List.range n).map (fun t =>
        if cell_gt_const (cellAt (getCol d2 "Price_Change") t) 0
        then volume_surge vols 20 t
        else (volume_surge vols 20 t).map (fun v => -v)))
  let d4 := setCol d3 "MA_5" ((List.range n).map (fun t => roll_mean closes 5 t))
  let d5 := setCol d4 "MA_20" ((List.range n).map (fun t => roll_mean closes 20 t))
  let d6 := setCol d5 "MA_Sentiment"
      ((List.range n).map (fun t =>
        some (if cell_gt (cellAt (getCol d5 "MA_5") t) (cellAt (getCol d5 "MA_20") t)
              then (1 : ℚ) else -1)))
  let d7 := setCol d6 "RSI_Sentiment"
      ((List.range n).map (fun t =>
        some (if cell_gt_const (cellAt (getCol d6 "RSI") t) 70 then (-1 : ℚ)
              else if cell_lt_const (cellAt (getCol d6 "RSI") t) 30 then 1 else 0)))
  let d8 := setCol d7 "BB_Sentiment"
      ((List.range n).map (fun t =>
        some (if cell_gt_const (cellAt (getCol d7 "BB_Position") t) 0.8 then (-1 : ℚ)
              else if cell_lt_const (cellAt (getCol d7 "BB_Position") t) 0.2 then 1 else 0)))
  let d9 := setCol d8 "Technical_Sentiment"
      (col_add (col_add (col_add ((getCol d8 "MA_Sentiment").map (Option.map (· * 0.3)))
        ((getCol d8 "RSI_Sentiment").map (Option.map (· * 0.25))))
        ((getCol d8 "BB_Sentiment").map (Option.map (· * 0.25))))
        ((getCol d8 "Price_Change_MA").map (Option.map (fun x => signQ x * 0.2))))
  let d10 := setCol d9 "Sentiment_Score"
      ((getCol d9 "Technical_Sentiment").map (Option.map (· * 100)))
  setCol d10 "Sentiment_Score"
      ((List.range n).map (fun t => roll_mean (getCol d10 "Sentiment_Score") 3 t))

/-- The column assignments of `calculate_volatility_metrics`
(lines 120–141). -/
def calculate_volatility_metrics (df : PTable) : PTable :=
  let closes := getCol df "Close"
  let highs := getCol df "High"
  let lows := getCol df "Low"
  let n := closes.length
  let d1 := setCol df "Returns" ((List.range n).map (fun t => price_momentum closes 1 t))
  let d2 := setCol d1 "Historical_Volatility"
      ((List.range n).map (fun t =>
        (owin (cellAt (getCol d1 "Returns")) 20 t).map
          (fun w => ratSqrt (var1 w) * ratSqrt 252 * 100)))
  let d3 := setCol d2 "H-L" ((List.range n).map (fun t => hl_at highs lows t))
  let d4 := setCol d3 "H-PC" ((List.range n).map (fun t => hpc_at highs closes t))
  let d5 := setCol d4 "L-PC" ((List.range n).map (fun t => lpc_at lows closes t))
  let d6 := setCol d5 "TR"
      ((List.range n).map (fun t =>
        row_max [cellAt (getCol d5 "H-L") t, cellAt (getCol d5 "H-PC") t,
                 cellAt (getCol d5 "L-PC") t]))
  let d7 := setCol d6 "ATR" ((List.range n).map (fun t => roll_mean (getCol d6 "TR") 14 t))
  let d8 := setCol d7 "ATR_Percentage"
      ((List.range n).map (fun t =>
        match cellAt (getCol d7 "ATR") t, cellAt closes t with
        | some a, some c => if c = 0 then none else some (a / c * 100)
        | _, _ => none))
  setCol d8 "BB_Width"
      ((List.range n).map (fun t =>
        (owin (cellAt closes) 20 t).bind
          (fun w => if meanQ w = 0 then none else some (ratSqrt (var1 w) * 4 / meanQ w * 100))))

/-- All column names written by the three augmentation functions. -/
def derived_columns : List String :=
  ["RSI", "BB_Position", "Volume_Surge", "Price_Momentum", "RSI_Norm", "BB_Norm",
   "Volume_Norm", "Momentum_Norm", "Greed_Fear_Index", "Price_Change", "Price_Change_MA",
   "Volume_Price_Sentiment", "MA_5", "MA_20", "MA_Sentiment", "RSI_Sentiment",
   "BB_Sentiment", "Technical_Sentiment", "Sentiment_Score", "Returns",
   "Historical_Volatility", "H-L", "H-PC", "L-PC", "TR", "ATR", "ATR_Percentage", "BB_Width"]

theorem getCol_setCol_ne (df : PTable) (v : Col) {c cw : String} (h : c ≠ cw) :
    getCol (setCol df cw v) c = getCol df c := by
  induction df with
  | nil =>
    simp [setCol, getCol, List.lookup, beq_eq_false_iff_ne.mpr h]
  | cons p rest ih =>
    unfold setCol
    by_cases hp : p.1 = cw
    · rw [if_pos hp]
      have hcp : c ≠ p.1 := fun hcp => h (hcp.trans hp)
      simp [getCol, List.lookup, beq_eq_false_iff_ne.mpr h, beq_eq_false_iff_ne.mpr hcp]
    · rw [if_neg hp]
      simp only [getCol, List.lookup] at ih ⊢
      cases hbc : (c == p.1) with
      | true => simp
      | false => simpa using ih

theorem gf_preserves (df : PTable) {c : String}
    (h1 : c ≠ "RSI") (h2 : c ≠ "BB_Position") (h3 : c ≠ "Volume_Surge")
    (h4 : c ≠ "Price_Momentum") (h5 : c ≠ "RSI_Norm") (h6 : c ≠ "BB_Norm")
    (h7 : c ≠ "Volume_Norm") (h8 : c ≠ "Momentum_Norm") (h9 : c ≠ "Greed_Fear_Index") :
    getCol (calculate_greed_fear_index df) c = getCol df c := by
  simp only [calculate_greed_fear_index]
  rw [getCol_setCol_ne _ _ h9, getCol_setCol_ne _ _ h8, getCol_setCol_ne _ _ h7,
    getCol_setCol_ne _ _ h6, getCol_setCol_ne _ _ h5, getCol_setCol_ne _ _ h4,
    getCol_setCol_ne _ _ h3, getCol_setCol_ne _ _ h2, getCol_setCol_ne _ _ h1]

theorem sent_preserves (df : PTable) {c : String}
    (h1 : c ≠ "Price_Change") (h2 : c ≠ "Price_Change_MA")
    (h3 : c ≠ "Volume_Price_Sentiment") (h4 : c ≠ "MA_5") (h5 : c ≠ "MA_20")
    (h6 : c ≠ "MA_Sentiment") (h7 : c ≠ "RSI_Sentiment") (h8 : c ≠ "BB_Sentiment")
    (h9 : c ≠ "Technical_Sentiment") (h10 : c ≠ "Sentiment_Score") :
    getCol (calculate_sentiment_score df) c = getCol df c := by
  simp only [calculate_sentiment_score]
  rw [getCol_setCol_ne _ _ h10, getCol_setCol_ne _ _ h10, getCol_setCol_ne _ _ h9,
    getCol_setCol_ne _ _ h8, getCol_setCol_ne _ _ h7, getCol_setCol_ne _ _ h6,
    getCol_setCol_ne _ _ h5, getCol_setCol_ne _ _ h4, getCol_setCol_ne _ _ h3,
    getCol_setCol_ne _ _ h2, getCol_setCol_ne _ _ h1]

theorem vol_preserves (df : PTable) {c : String}
    (h1 : c ≠ "Returns") (h2 : c ≠ "Historical_Volatility") (h3 : c ≠ "H-L")
    (h4 : c ≠ "H-PC") (h5 : c ≠ "L-PC") (h6 : c ≠ "TR") (h7 : c ≠ "ATR")
    (h8 : c ≠ "ATR_Percentage") (h9 : c ≠ "BB_Width") :
    getCol (calculate_volatility_metrics df) c = getCol df c := by
  simp only [calculate_volatility_metrics]
  rw [getCol_setCol_ne _ _ h9, getCol_setCol_ne _ _ h8, getCol_setCol_ne _ _ h7,
    getCol_setCol_ne _ _ h6, getCol_setCol_ne _ _ h5, getCol_setCol_ne _ _ h4,
    getCol_setCol_ne _ _ h3, getCol_setCol_ne _ _ h2, getCol_setCol_ne _ _ h1]

/-- C8 (amended): the full augmentation chain (greed-fear, sentiment,
volatility) leaves every column whose name is not among the derived column
names — in particular `Open`, `High`, `Low`, `Close`, `Volume` — exactly
as it was in the input table.  (A pre-existing column that *shares* a
derived name is overwritten — see the counterexample.) -/
theorem C8_augmentation_preserves (df : PTable) (c : String)
    (h : c ∉ derived_columns) :
    getCol (calculate_volatility_metrics (calculate_sentiment_score
      (calculate_greed_fear_index df))) c = getCol df c := by
  simp only [derived_columns, List.mem_cons, List.mem_singleton, not_or] at h
  obtain ⟨n1, n2, n3, n4, n5, n6, n7, n8, n9, n10, n11, n12, n13, n14, n15, n16, n17,
    n18, n19, n20, n21, n22, n23, n24, n25, n26, n27, n28, -⟩ := h
  rw [vol_preserves _ n20 n21 n22 n23 n24 n25 n26 n27 n28,
    sent_preserves _ n10 n11 n12 n13 n14 n15 n16 n17 n18 n19,
    gf_preserves _ n1 n2 n3 n4 n5 n6 n7 n8 n9]

/-- A one-row OHLCV table that also carries a pre-existing column named
`RSI` with value 5. -/
def c8df : PTable :=
  [("Open", [some 1]), ("High", [some 2]), ("Low", [some 1]), ("Close", [some 2]),
   ("Volume", [some 3]), ("RSI", [some 5])]

/-- C8 (counterexample): the augmentation does *not* preserve every
pre-existing column: a column named like a derived one (here `RSI`,
value 5) is overwritten (here with the undefined RSI of a 1-row series). -/
theorem C8_counterexample :
    getCol c8df "RSI" = [some 5] ∧
      getCol (calculate_volatility_metrics (calculate_sentiment_score
        (calculate_greed_fear_index c8df))) "RSI" = [none] ∧
      ([none] : Col) ≠ [some 5] :=
  ⟨by decide, by decide, by decide⟩

/-- C8 (witness): `Open` is not a derived column name and survives the
full augmentation chain unchanged. -/
theorem C8_augmentation_preserves_witness :
    "Open" ∉ derived_columns ∧
      getCol (calculate_volatility_metrics (calculate_sentiment_score
        (calculate_greed_fear_index c8df))) "Open" = getCol c8df "Open" :=
  ⟨by decide, C8_augmentation_preserves c8df "Open" (by decide)⟩

end StockApp
